import Mathlib

/-!
Shallow embedding of `src/main.py`: a CSV join-and-aggregate engine that
loads legislators, bills, votes and vote results, and computes a
per-legislator summary and a per-bill summary, plus an enrichment layer
for dataset previews.

Raw CSV rows are association lists `List (String × String)` (Python
`Dict[str, str]` from `csv.DictReader`); the Python `dict.get` is `rowGet`.
Python dicts keyed by `int` (the vote lookup, the legislator-by-id lookup)
are modelled as lookup functions `Int → Option _`, built by a left fold so
that later entries overwrite earlier ones, exactly as a dict comprehension
does.  Python `set` is `Finset Int`.
-/

/-- A raw CSV row: ordered association list of column name to string value. -/
abbrev RawRow := List (String × String)

/-- `row.get(key)`: first binding of `key`, `none` when absent. -/
def rowGet (row : RawRow) (key : String) : Option String :=
  (row.find? (fun p => p.1 == key)).map (·.2)

/-- Python `a or b` on `Optional[str]` operands: `a` unless it is falsy
(`None` or the empty string), in which case `b`. -/
def orStr : Option String → Option String → Option String
  | none, b => b
  | some s, b => if s = "" then b else some s

/-- Python `str.strip()`: drop leading and trailing whitespace. -/
def strip (s : String) : String :=
  ⟨((s.data.dropWhile Char.isWhitespace).reverse.dropWhile Char.isWhitespace).reverse⟩

/-- Decimal digit run to a number: `none` unless non-empty and all digits. -/
def digitsToNat? (cs : List Char) : Option Nat :=
  if cs ≠ [] ∧ cs.all Char.isDigit then
    some (cs.foldl (fun n c => 10 * n + (c.toNat - ('0').toNat)) 0)
  else none

/-- Python `int(s)` on an optionally `-`-signed decimal string (the only
shape the datasets carry): `none` on anything unparseable. -/
def str_to_int (s : String) : Option Int :=
  match s.data with
  | '-' :: rest => (digitsToNat? rest).map (fun n => -(n : Int))
  | cs => (digitsToNat? cs).map (fun n => (n : Int))

/-- `parse_int` from `src/main.py`: `None`/empty string parse to no value,
non-numeric strings parse to no value, otherwise the integer. -/
def parse_int : Option String → Option Int
  | none => none
  | some s => if s = "" then none else str_to_int s

structure Legislator where
  id : Int
  name : String
deriving DecidableEq, Repr

structure Bill where
  id : Int
  title : String
  sponsor_id : Option Int
deriving DecidableEq, Repr

structure Vote where
  id : Int
  bill_id : Int
deriving DecidableEq, Repr

structure VoteResult where
  legislator_id : Int
  vote_id : Int
  vote_type : Int
deriving DecidableEq, Repr

/-- Loop body of `load_legislators`: a row is kept iff its `id` parses;
`name` defaults to the empty string and is whitespace-stripped. -/
def legislator_of_row (row : RawRow) : Option Legislator :=
  match parse_int (rowGet row "id") with
  | none => none
  | some leg_id => some ⟨leg_id, strip ((rowGet row "name").getD "")⟩

/-- `load_legislators`: keep every row with a parseable `id`, in order. -/
def load_legislators (rows : List RawRow) : List Legislator :=
  rows.filterMap legislator_of_row

/-- The sponsor-id alias chain of `load_bills` and of the bills enrichment:
`row.get("Primary Sponsor") or row.get("primary_sponsor") or row.get("sponsor_id")`. -/
def sponsorAliasRaw (row : RawRow) : Option String :=
  orStr (rowGet row "Primary Sponsor")
    (orStr (rowGet row "primary_sponsor") (rowGet row "sponsor_id"))

/-- Loop body of `load_bills`: a row is kept iff its `id` parses; `title`
defaults to empty and is stripped; `sponsor_id` is the parsed alias chain. -/
def bill_of_row (row : RawRow) : Option Bill :=
  match parse_int (rowGet row "id") with
  | none => none
  | some bill_id =>
      some ⟨bill_id, strip ((rowGet row "title").getD ""), parse_int (sponsorAliasRaw row)⟩

/-- `load_bills`: keep every row with a parseable `id`, in order. -/
def load_bills (rows : List RawRow) : List Bill :=
  rows.filterMap bill_of_row

/-- Loop body of `load_vote_results`: kept iff all three integer fields parse. -/
def vote_result_of_row (row : RawRow) : Option VoteResult :=
  match parse_int (rowGet row "legislator_id"), parse_int (rowGet row "vote_id"),
      parse_int (rowGet row "vote_type") with
  | some l, some v, some t => some ⟨l, v, t⟩
  | _, _, _ => none

/-- `load_vote_results`: keep every fully-parseable row, in order. -/
def load_vote_results (rows : List RawRow) : List VoteResult :=
  rows.filterMap vote_result_of_row

/-- `{leg.id: leg for leg in legislators}`: later entries overwrite earlier. -/
def legislator_by_id (legislators : List Legislator) : Int → Option Legislator :=
  legislators.foldl (fun m leg => fun i => if i = leg.id then some leg else m i)
    (fun _ => none)

/-- `{leg.id: leg.name for leg in ...}` used by the enrichment layer. -/
def legNameLookup (legislators : List Legislator) : Int → Option String :=
  legislators.foldl (fun m leg => fun i => if i = leg.id then some leg.name else m i)
    (fun _ => none)

/-- `supported.setdefault(k, set()).add(v)` on a defaulted mapping. -/
def addTo (m : Int → Finset Int) (k v : Int) : Int → Finset Int :=
  fun i => if i = k then insert v (m i) else m i

/-- One iteration of the accumulation loop of `compute_legislator_summary`:
resolve the vote id; on failure skip; vote_type 1 adds the bill to the
legislator's supported set, 2 to the opposed set, others are ignored. -/
def legSetsStep (votes : Int → Option Vote)
    (acc : (Int → Finset Int) × (Int → Finset Int)) (result : VoteResult) :
    (Int → Finset Int) × (Int → Finset Int) :=
  match votes result.vote_id with
  | none => acc
  | some vote =>
      if result.vote_type = 1 then (addTo acc.1 result.legislator_id vote.bill_id, acc.2)
      else if result.vote_type = 2 then (acc.1, addTo acc.2 result.legislator_id vote.bill_id)
      else acc

/-- The `supported` / `opposed` mappings of `compute_legislator_summary`. -/
def legSets (votes : Int → Option Vote) (vote_results : List VoteResult) :
    (Int → Finset Int) × (Int → Finset Int) :=
  vote_results.foldl (legSetsStep votes) (fun _ => ∅, fun _ => ∅)

/-- One summary row of `compute_legislator_summary`. -/
structure LegislatorRow where
  id : Int
  name : String
  num_supported_bills : Nat
  num_opposed_bills : Nat
deriving DecidableEq, Repr

/-- `compute_legislator_summary`: one row per loaded legislator, sorted
ascending by id, with the sizes of the deduplicated bill sets. -/
def compute_legislator_summary (legislators : List Legislator)
    (vote_results : List VoteResult) (votes : Int → Option Vote) :
    List LegislatorRow :=
  let sets := legSets votes vote_results
  (legislators.mergeSort (fun a b => decide (a.id ≤ b.id))).map fun leg =>
    ⟨leg.id, leg.name, (sets.1 leg.id).card, (sets.2 leg.id).card⟩

/-- One iteration of the accumulation loop of `compute_bill_summary`:
same resolution and vote_type semantics, keyed by bill instead. -/
def billSetsStep (votes : Int → Option Vote)
    (acc : (Int → Finset Int) × (Int → Finset Int)) (result : VoteResult) :
    (Int → Finset Int) × (Int → Finset Int) :=
  match votes result.vote_id with
  | none => acc
  | some vote =>
      if result.vote_type = 1 then (addTo acc.1 vote.bill_id result.legislator_id, acc.2)
      else if result.vote_type = 2 then (acc.1, addTo acc.2 vote.bill_id result.legislator_id)
      else acc

/-- The `supporters` / `opposers` mappings of `compute_bill_summary`. -/
def billSets (votes : Int → Option Vote) (vote_results : List VoteResult) :
    (Int → Finset Int) × (Int → Finset Int) :=
  vote_results.foldl (billSetsStep votes) (fun _ => ∅, fun _ => ∅)

/-- Sponsor-name resolution of `compute_bill_summary`: `"Unknown"` when
there is no sponsor id or it is not in the lookup, else the name. -/
def resolveSponsor (lookup : Int → Option Legislator) (bill : Bill) : String :=
  match bill.sponsor_id with
  | none => "Unknown"
  | some sid =>
      match lookup sid with
      | some sponsor => sponsor.name
      | none => "Unknown"

/-- One summary row of `compute_bill_summary`. -/
structure BillRow where
  id : Int
  title : String
  supporter_count : Nat
  opposer_count : Nat
  primary_sponsor : String
deriving DecidableEq, Repr

/-- `compute_bill_summary`: one row per loaded bill, sorted ascending by id,
with distinct supporter/opposer counts and the resolved sponsor name. -/
def compute_bill_summary (bills : List Bill) (legislators : List Legislator)
    (vote_results : List VoteResult) (votes : Int → Option Vote) :
    List BillRow :=
  let sets := billSets votes vote_results
  let lookup := legislator_by_id legislators
  (bills.mergeSort (fun a b => decide (a.id ≤ b.id))).map fun bill =>
    ⟨bill.id, bill.title, (sets.1 bill.id).card, (sets.2 bill.id).card,
      resolveSponsor lookup bill⟩

/-- A value of an enriched preview record (`Dict[str, object]`): the raw
rows hold strings; the vote-results enrichment also stores an integer
`bill_id`. -/
inductive FieldVal where
  | str (s : String)
  | int (n : Int)
deriving DecidableEq, Repr

/-- An enriched preview record, in field order. -/
abbrev Row := List (String × FieldVal)

/-- `dict(row)`: the fresh copy of a raw row, values injected as strings. -/
def rawToRow (row : RawRow) : Row :=
  row.map fun p => (p.1, FieldVal.str p.2)

/-- Python dict assignment `d[k] = v` on a record with no duplicate keys:
an existing key keeps its position and gets the new value, a new key is
appended at the end. -/
def dictSet (d : Row) (k : String) (v : FieldVal) : Row :=
  if d.any (fun p => p.1 == k) then
    d.map fun p => if p.1 == k then (k, v) else p
  else d ++ [(k, v)]

/-- Lookup in an enriched record. -/
def dictGet (d : Row) (k : String) : Option FieldVal :=
  (d.find? (fun p => p.1 == k)).map (·.2)

/-- The bills branch of `enrich_rows`: resolve the sponsor-id alias chain
and set `sponsor_name`.  Note the Python truthiness test `if sponsor_id`:
a sponsor id of `0` (like `None`) short-circuits to `"Unknown"` without
consulting the lookup. -/
def enrich_bill_row (legislators : Int → Option String) (row : RawRow) : Row :=
  let sponsor_id := parse_int (sponsorAliasRaw row)
  let sponsor_name :=
    match sponsor_id with
    | none => "Unknown"
    | some sid => if sid = 0 then "Unknown" else (legislators sid).getD "Unknown"
  dictSet (rawToRow row) "sponsor_name" (FieldVal.str sponsor_name)

/-- The votes branch of `enrich_rows`: set `bill_title` via the bill lookup. -/
def enrich_votes_row (bills : Int → Option Bill) (row : RawRow) : Row :=
  let bill_id := parse_int (rowGet row "bill_id")
  let bill_title :=
    match bill_id with
    | none => "Unknown"
    | some b =>
        match bills b with
        | some bill => bill.title
        | none => "Unknown"
  dictSet (rawToRow row) "bill_title" (FieldVal.str bill_title)

/-- The vote_results branch of `enrich_rows`: set `legislator_name`,
`bill_id` (empty string when the vote id does not resolve) and
`bill_title`. -/
def enrich_vote_results_row (legislators : Int → Option String)
    (bills : Int → Option Bill) (votes : Int → Option Vote) (row : RawRow) : Row :=
  let legislator_id := parse_int (rowGet row "legislator_id")
  let vote_id := parse_int (rowGet row "vote_id")
  let vote := match vote_id with | none => none | some v => votes v
  let bill_id := vote.map (·.bill_id)
  let legislator_name :=
    match legislator_id with
    | none => "Unknown"
    | some l => (legislators l).getD "Unknown"
  let bill_title :=
    match bill_id with
    | none => "Unknown"
    | some b =>
        match bills b with
        | some bill => bill.title
        | none => "Unknown"
  let r1 := dictSet (rawToRow row) "legislator_name" (FieldVal.str legislator_name)
  let r2 := dictSet r1 "bill_id"
    (match bill_id with | none => FieldVal.str "" | some b => FieldVal.int b)
  dictSet r2 "bill_title" (FieldVal.str bill_title)

/-- The four raw preview datasets handled by `enrich_rows`. -/
inductive Category where
  | bills
  | legislators
  | votes
  | vote_results
deriving DecidableEq, Repr

/-- The `extra_fields` returned by `enrich_rows` for each category. -/
def extraFields : Category → List String
  | .bills => ["sponsor_name"]
  | .votes => ["bill_title"]
  | .vote_results => ["legislator_name", "bill_id", "bill_title"]
  | .legislators => []

/-- The lookup tables `enrich_rows` loads for the enrichment joins. -/
structure LookupCtx where
  legNames : Int → Option String
  billLookup : Int → Option Bill
  voteLookup : Int → Option Vote

/-- The per-row `enrich` closure chosen by `enrich_rows`; the legislators
category (the fall-through) returns the row unchanged. -/
def enrichOne (ctx : LookupCtx) : Category → RawRow → Row
  | .bills, row => enrich_bill_row ctx.legNames row
  | .votes, row => enrich_votes_row ctx.billLookup row
  | .vote_results, row =>
      enrich_vote_results_row ctx.legNames ctx.billLookup ctx.voteLookup row
  | .legislators, row => rawToRow row

/-- `enrich_rows`: enrich every row and report the added field names. -/
def enrich_rows (ctx : LookupCtx) (cat : Category) (rows : List RawRow) :
    List Row × List String :=
  (rows.map (enrichOne ctx cat), extraFields cat)

/-- The table column list built by `preview_dataset`: base field names
followed by the extra fields not already present. -/
def previewFieldnames (base : List String) (extra : List String) : List String :=
  base ++ extra.filter (fun f => ! base.contains f)

/-! ### Declarative characterizations of the accumulated sets -/

/-- What one vote result contributes to legislator `l`'s supported set. -/
def supportContrib (votes : Int → Option Vote) (l : Int) (r : VoteResult) : Option Int :=
  match votes r.vote_id with
  | none => none
  | some v => if r.legislator_id = l ∧ r.vote_type = 1 then some v.bill_id else none

/-- What one vote result contributes to legislator `l`'s opposed set. -/
def opposeContrib (votes : Int → Option Vote) (l : Int) (r : VoteResult) : Option Int :=
  match votes r.vote_id with
  | none => none
  | some v => if r.legislator_id = l ∧ r.vote_type = 2 then some v.bill_id else none

/-- The distinct bills legislator `l` supported, as a set. -/
def supportedBills (votes : Int → Option Vote) (rs : List VoteResult) (l : Int) :
    Finset Int :=
  (rs.filterMap (supportContrib votes l)).toFinset

/-- The distinct bills legislator `l` opposed, as a set. -/
def opposedBills (votes : Int → Option Vote) (rs : List VoteResult) (l : Int) :
    Finset Int :=
  (rs.filterMap (opposeContrib votes l)).toFinset

/-- What one vote result contributes to bill `b`'s supporter set. -/
def billSupContrib (votes : Int → Option Vote) (b : Int) (r : VoteResult) : Option Int :=
  match votes r.vote_id with
  | none => none
  | some v => if v.bill_id = b ∧ r.vote_type = 1 then some r.legislator_id else none

/-- What one vote result contributes to bill `b`'s opposer set. -/
def billOppContrib (votes : Int → Option Vote) (b : Int) (r : VoteResult) : Option Int :=
  match votes r.vote_id with
  | none => none
  | some v => if v.bill_id = b ∧ r.vote_type = 2 then some r.legislator_id else none

/-- The distinct legislators supporting bill `b`, as a set. -/
def billSupporters (votes : Int → Option Vote) (rs : List VoteResult) (b : Int) :
    Finset Int :=
  (rs.filterMap (billSupContrib votes b)).toFinset

/-- The distinct legislators opposing bill `b`, as a set. -/
def billOpposers (votes : Int → Option Vote) (rs : List VoteResult) (b : Int) :
    Finset Int :=
  (rs.filterMap (billOppContrib votes b)).toFinset

/-- The distinct legislators appearing in vote results that resolve to bill
`b` via the vote lookup, whatever their vote_type. -/
def votersOn (votes : Int → Option Vote) (rs : List VoteResult) (b : Int) :
    Finset Int :=
  (rs.filterMap fun r =>
    match votes r.vote_id with
    | none => none
    | some v => if v.bill_id = b then some r.legislator_id else none).toFinset

/-! ### Concrete fixtures used by closed theorems and witnesses -/

/-- The vote lookup `{100: Vote(100, 10)}` of the end-to-end example. -/
def votesEx : Int → Option Vote :=
  fun v => if v = 100 then some ⟨100, 10⟩ else none

/-- The legislators of the end-to-end example. -/
def legsEx : List Legislator := [⟨1, "Alice"⟩, ⟨2, "Bob"⟩]

/-- The bills of the end-to-end example. -/
def billsEx : List Bill := [⟨10, "Act A", some 1⟩]

/-- The vote results of the end-to-end example. -/
def resultsEx : List VoteResult := [⟨1, 100, 1⟩, ⟨2, 100, 2⟩]

/-- One legislator casting a support and an oppose result on the same vote. -/
def resultsBothWays : List VoteResult := [⟨1, 100, 1⟩, ⟨1, 100, 2⟩]

/-- A legislator whose id is 0, the integer Python treats as falsy. -/
def legsZed : List Legislator := [⟨0, "Zed"⟩]

/-- A raw bill row whose sponsor id parses to 0. -/
def rowZed : RawRow := [("id", "7"), ("sponsor_id", "0")]

/-- The bill `load_bills` produces from `rowZed`. -/
def billZed : Bill := ⟨7, "", some 0⟩

/-- Empty lookup tables for the enrichment layer. -/
def ctxEmpty : LookupCtx := ⟨fun _ => none, fun _ => none, fun _ => none⟩

/-- A raw bills row that already has a `sponsor_name` column. -/
def rowClash : RawRow := [("id", "1"), ("sponsor_name", "X")]

theorem legSetsStep_fst (votes : Int → Option Vote)
    (acc : (Int → Finset Int) × (Int → Finset Int)) (r : VoteResult) (l : Int) :
    (legSetsStep votes acc r).1 l =
      match supportContrib votes l r with
      | some b => insert b (acc.1 l)
      | none => acc.1 l := by
  unfold legSetsStep supportContrib addTo
  cases votes r.vote_id with
  | none => rfl
  | some v =>
    by_cases ht : r.vote_type = 1
    · by_cases hl : r.legislator_id = l
      · simp [ht, hl]
      · simp [ht, hl]
        exact fun h => absurd h.symm hl
    · by_cases ht2 : r.vote_type = 2 <;> simp [ht, ht2]

theorem legSetsStep_snd (votes : Int → Option Vote)
    (acc : (Int → Finset Int) × (Int → Finset Int)) (r : VoteResult) (l : Int) :
    (legSetsStep votes acc r).2 l =
      match opposeContrib votes l r with
      | some b => insert b (acc.2 l)
      | none => acc.2 l := by
  unfold legSetsStep opposeContrib addTo
  cases votes r.vote_id with
  | none => rfl
  | some v =>
    by_cases ht : r.vote_type = 1
    · simp [ht]
    · by_cases ht2 : r.vote_type = 2
      · by_cases hl : r.legislator_id = l
        · simp [ht, ht2, hl]
        · simp [ht, ht2, hl]
          exact fun h => absurd h.symm hl
      · simp [ht, ht2]

theorem billSetsStep_fst (votes : Int → Option Vote)
    (acc : (Int → Finset Int) × (Int → Finset Int)) (r : VoteResult) (b : Int) :
    (billSetsStep votes acc r).1 b =
      match billSupContrib votes b r with
      | some l => insert l (acc.1 b)
      | none => acc.1 b := by
  unfold billSetsStep billSupContrib addTo
  cases votes r.vote_id with
  | none => rfl
  | some v =>
    by_cases ht : r.vote_type = 1
    · by_cases hb : v.bill_id = b
      · simp [ht, hb]
      · simp [ht, hb]
        exact fun h => absurd h.symm hb
    · by_cases ht2 : r.vote_type = 2 <;> simp [ht, ht2]

theorem billSetsStep_snd (votes : Int → Option Vote)
    (acc : (Int → Finset Int) × (Int → Finset Int)) (r : VoteResult) (b : Int) :
    (billSetsStep votes acc r).2 b =
      match billOppContrib votes b r with
      | some l => insert l (acc.2 b)
      | none => acc.2 b := by
  unfold billSetsStep billOppContrib addTo
  cases votes r.vote_id with
  | none => rfl
  | some v =>
    by_cases ht : r.vote_type = 1
    · simp [ht]
    · by_cases ht2 : r.vote_type = 2
      · by_cases hb : v.bill_id = b
        · simp [ht, ht2, hb]
        · simp [ht, ht2, hb]
          exact fun h => absurd h.symm hb
      · simp [ht, ht2]

theorem legSets_foldl (votes : Int → Option Vote) (rs : List VoteResult) :
    ∀ acc l,
      ((rs.foldl (legSetsStep votes) acc).1 l = acc.1 l ∪ supportedBills votes rs l)
      ∧ ((rs.foldl (legSetsStep votes) acc).2 l = acc.2 l ∪ opposedBills votes rs l) := by
  induction rs with
  | nil => intro acc l; simp [supportedBills, opposedBills]
  | cons r rs ih =>
    intro acc l
    rw [List.foldl_cons]
    obtain ⟨ih1, ih2⟩ := ih (legSetsStep votes acc r) l
    refine ⟨?_, ?_⟩
    · rw [ih1, legSetsStep_fst]
      simp only [supportedBills, List.filterMap_cons]
      cases supportContrib votes l r with
      | none => rfl
      | some b => simp [Finset.insert_union, Finset.union_insert]
    · rw [ih2, legSetsStep_snd]
      simp only [opposedBills, List.filterMap_cons]
      cases opposeContrib votes l r with
      | none => rfl
      | some b => simp [Finset.insert_union, Finset.union_insert]

theorem billSets_foldl (votes : Int → Option Vote) (rs : List VoteResult) :
    ∀ acc b,
      ((rs.foldl (billSetsStep votes) acc).1 b = acc.1 b ∪ billSupporters votes rs b)
      ∧ ((rs.foldl (billSetsStep votes) acc).2 b = acc.2 b ∪ billOpposers votes rs b) := by
  induction rs with
  | nil => intro acc b; simp [billSupporters, billOpposers]
  | cons r rs ih =>
    intro acc b
    rw [List.foldl_cons]
    obtain ⟨ih1, ih2⟩ := ih (billSetsStep votes acc r) b
    refine ⟨?_, ?_⟩
    · rw [ih1, billSetsStep_fst]
      simp only [billSupporters, List.filterMap_cons]
      cases billSupContrib votes b r with
      | none => rfl
      | some l => simp [Finset.insert_union, Finset.union_insert]
    · rw [ih2, billSetsStep_snd]
      simp only [billOpposers, List.filterMap_cons]
      cases billOppContrib votes b r with
      | none => rfl
      | some l => simp [Finset.insert_union, Finset.union_insert]

theorem legSets_fst (votes : Int → Option Vote) (rs : List VoteResult) (l : Int) :
    (legSets votes rs).1 l = supportedBills votes rs l := by
  have h := (legSets_foldl votes rs (fun _ => ∅, fun _ => ∅) l).1
  simpa [legSets] using h

theorem legSets_snd (votes : Int → Option Vote) (rs : List VoteResult) (l : Int) :
    (legSets votes rs).2 l = opposedBills votes rs l := by
  have h := (legSets_foldl votes rs (fun _ => ∅, fun _ => ∅) l).2
  simpa [legSets] using h

theorem billSets_fst (votes : Int → Option Vote) (rs : List VoteResult) (b : Int) :
    (billSets votes rs).1 b = billSupporters votes rs b := by
  have h := (billSets_foldl votes rs (fun _ => ∅, fun _ => ∅) b).1
  simpa [billSets] using h

theorem billSets_snd (votes : Int → Option Vote) (rs : List VoteResult) (b : Int) :
    (billSets votes rs).2 b = billOpposers votes rs b := by
  have h := (billSets_foldl votes rs (fun _ => ∅, fun _ => ∅) b).2
  simpa [billSets] using h

theorem supportContrib_eq_some {votes : Int → Option Vote} {l : Int}
    {r : VoteResult} {b : Int} :
    supportContrib votes l r = some b ↔
      r.legislator_id = l ∧ r.vote_type = 1 ∧
        ∃ v, votes r.vote_id = some v ∧ v.bill_id = b := by
  unfold supportContrib
  cases h : votes r.vote_id with
  | none => simp
  | some v =>
    by_cases hc : r.legislator_id = l ∧ r.vote_type = 1
    · simp [hc, hc.1, hc.2, eq_comm]
    · simp only [if_neg hc]
      simp only [not_and] at hc
      constructor
      · intro hfalse; cases hfalse
      · rintro ⟨h1, h2, _⟩; exact absurd h2 (hc h1)

theorem opposeContrib_eq_some {votes : Int → Option Vote} {l : Int}
    {r : VoteResult} {b : Int} :
    opposeContrib votes l r = some b ↔
      r.legislator_id = l ∧ r.vote_type = 2 ∧
        ∃ v, votes r.vote_id = some v ∧ v.bill_id = b := by
  unfold opposeContrib
  cases h : votes r.vote_id with
  | none => simp
  | some v =>
    by_cases hc : r.legislator_id = l ∧ r.vote_type = 2
    · simp [hc, hc.1, hc.2, eq_comm]
    · simp only [if_neg hc]
      simp only [not_and] at hc
      constructor
      · intro hfalse; cases hfalse
      · rintro ⟨h1, h2, _⟩; exact absurd h2 (hc h1)

theorem billSupContrib_eq_some {votes : Int → Option Vote} {b : Int}
    {r : VoteResult} {l : Int} :
    billSupContrib votes b r = some l ↔
      r.legislator_id = l ∧ r.vote_type = 1 ∧
        ∃ v, votes r.vote_id = some v ∧ v.bill_id = b := by
  unfold billSupContrib
  cases h : votes r.vote_id with
  | none => simp
  | some v =>
    by_cases hc : v.bill_id = b ∧ r.vote_type = 1
    · simp [hc, hc.1, hc.2, eq_comm]
    · simp only [if_neg hc]
      simp only [not_and] at hc
      constructor
      · intro hfalse; cases hfalse
      · rintro ⟨_, h2, v', hv', hb'⟩
        simp only [Option.some.injEq] at hv'
        subst hv'
        exact absurd h2 (hc hb')

theorem billOppContrib_eq_some {votes : Int → Option Vote} {b : Int}
    {r : VoteResult} {l : Int} :
    billOppContrib votes b r = some l ↔
      r.legislator_id = l ∧ r.vote_type = 2 ∧
        ∃ v, votes r.vote_id = some v ∧ v.bill_id = b := by
  unfold billOppContrib
  cases h : votes r.vote_id with
  | none => simp
  | some v =>
    by_cases hc : v.bill_id = b ∧ r.vote_type = 2
    · simp [hc, hc.1, hc.2, eq_comm]
    · simp only [if_neg hc]
      simp only [not_and] at hc
      constructor
      · intro hfalse; cases hfalse
      · rintro ⟨_, h2, v', hv', hb'⟩
        simp only [Option.some.injEq] at hv'
        subst hv'
        exact absurd h2 (hc hb')

theorem mem_supportedBills {votes : Int → Option Vote} {rs : List VoteResult}
    {l b : Int} :
    b ∈ supportedBills votes rs l ↔
      ∃ r ∈ rs, r.legislator_id = l ∧ r.vote_type = 1 ∧
        ∃ v, votes r.vote_id = some v ∧ v.bill_id = b := by
  simp only [supportedBills, List.mem_toFinset, List.mem_filterMap,
    supportContrib_eq_some]

theorem mem_opposedBills {votes : Int → Option Vote} {rs : List VoteResult}
    {l b : Int} :
    b ∈ opposedBills votes rs l ↔
      ∃ r ∈ rs, r.legislator_id = l ∧ r.vote_type = 2 ∧
        ∃ v, votes r.vote_id = some v ∧ v.bill_id = b := by
  simp only [opposedBills, List.mem_toFinset, List.mem_filterMap,
    opposeContrib_eq_some]

theorem mem_billSupporters {votes : Int → Option Vote} {rs : List VoteResult}
    {b l : Int} :
    l ∈ billSupporters votes rs b ↔
      ∃ r ∈ rs, r.legislator_id = l ∧ r.vote_type = 1 ∧
        ∃ v, votes r.vote_id = some v ∧ v.bill_id = b := by
  simp only [billSupporters, List.mem_toFinset, List.mem_filterMap,
    billSupContrib_eq_some]

theorem mem_billOpposers {votes : Int → Option Vote} {rs : List VoteResult}
    {b l : Int} :
    l ∈ billOpposers votes rs b ↔
      ∃ r ∈ rs, r.legislator_id = l ∧ r.vote_type = 2 ∧
        ∃ v, votes r.vote_id = some v ∧ v.bill_id = b := by
  simp only [billOpposers, List.mem_toFinset, List.mem_filterMap,
    billOppContrib_eq_some]

theorem mem_votersOn {votes : Int → Option Vote} {rs : List VoteResult}
    {b l : Int} :
    l ∈ votersOn votes rs b ↔
      ∃ r ∈ rs, r.legislator_id = l ∧
        ∃ v, votes r.vote_id = some v ∧ v.bill_id = b := by
  simp only [votersOn, List.mem_toFinset, List.mem_filterMap]
  constructor
  · rintro ⟨r, hr, hc⟩
    cases h : votes r.vote_id with
    | none => simp [h] at hc
    | some v =>
      simp only [h] at hc
      split_ifs at hc with hb
      · exact ⟨r, hr, by injection hc, v, h, hb⟩
  · rintro ⟨r, hr, hl, v, hv, hb⟩
    exact ⟨r, hr, by simp [hv, hb, hl]⟩

/-! ### The keyed legislator lookup -/

theorem foldl_byId_eval_none :
    ∀ (legs : List Legislator) (m : Int → Option Legislator) (i : Int),
      (∀ leg ∈ legs, leg.id ≠ i) → m i = none →
      (legs.foldl (fun m leg => fun j => if j = leg.id then some leg else m j) m) i
        = none := by
  intro legs
  induction legs with
  | nil => intro m i _ hm; exact hm
  | cons leg legs ih =>
    intro m i h hm
    rw [List.foldl_cons]
    refine ih _ i (fun l hl => h l (List.mem_cons_of_mem _ hl)) ?_
    have hne : leg.id ≠ i := h leg (List.mem_cons_self _ _)
    rw [if_neg (fun he : i = leg.id => hne he.symm)]
    exact hm

theorem foldl_byId_eval_some :
    ∀ (legs : List Legislator) (m : Int → Option Legislator) (i : Int)
      (leg : Legislator),
      (legs.foldl (fun m leg => fun j => if j = leg.id then some leg else m j) m) i
          = some leg →
      (leg ∈ legs ∧ leg.id = i) ∨ m i = some leg := by
  intro legs
  induction legs with
  | nil => intro m i leg h; exact Or.inr h
  | cons leg' legs ih =>
    intro m i leg h
    rw [List.foldl_cons] at h
    rcases ih _ i leg h with ⟨hmem, hid⟩ | hm
    · exact Or.inl ⟨List.mem_cons_of_mem _ hmem, hid⟩
    · by_cases hi : i = leg'.id
      · rw [if_pos hi] at hm
        have : leg' = leg := by injection hm
        subst this
        exact Or.inl ⟨List.mem_cons_self _ _, hi.symm⟩
      · rw [if_neg hi] at hm
        exact Or.inr hm

/-- When no loaded legislator has id `i`, the keyed lookup misses. -/
theorem legislator_by_id_none (legs : List Legislator) (i : Int)
    (h : ∀ leg ∈ legs, leg.id ≠ i) : legislator_by_id legs i = none :=
  foldl_byId_eval_none legs _ i h rfl

/-- A hit of the keyed lookup is a loaded legislator with the looked-up id. -/
theorem legislator_by_id_some (legs : List Legislator) (i : Int)
    (leg : Legislator) (h : legislator_by_id legs i = some leg) :
    leg ∈ legs ∧ leg.id = i := by
  rcases foldl_byId_eval_some legs _ i leg h with h' | h'
  · exact h'
  · cases h'

/-! ### Record (Python dict) lemmas for the enrichment layer -/

theorem dictGet_rawToRow (row : RawRow) (k : String) :
    dictGet (rawToRow row) k = (rowGet row k).map FieldVal.str := by
  unfold dictGet rawToRow rowGet
  induction row with
  | nil => rfl
  | cons p row ih =>
    simp only [List.map_cons, List.find?_cons]
    cases hp : (p.1 == k) <;> simp_all

theorem rawToRow_keys (row : RawRow) :
    (rawToRow row).map (fun p => p.1) = row.map (fun p => p.1) := by
  simp [rawToRow, List.map_map]

theorem find?_map_update_self (k : String) (v : FieldVal) :
    ∀ d : Row, d.any (fun p => p.1 == k) = true →
      List.find? (fun p => p.1 == k)
          (d.map fun p => if p.1 == k then (k, v) else p) = some (k, v) := by
  intro d
  induction d with
  | nil => intro h; cases h
  | cons p d ih =>
    intro h
    simp only [List.map_cons]
    cases hp : (p.1 == k) with
    | true =>
      rw [if_pos rfl]
      simp
    | false =>
      rw [if_neg Bool.false_ne_true]
      rw [List.find?_cons_of_neg _ (by simp [hp])]
      apply ih
      simpa [List.any_cons, hp] using h

theorem find?_map_update_other (k k' : String) (v : FieldVal) (hne : k' ≠ k) :
    ∀ d : Row, List.find? (fun p => p.1 == k')
        (d.map fun p => if p.1 == k then (k, v) else p)
      = List.find? (fun p => p.1 == k') d := by
  have hkne : k ≠ k' := fun h => hne h.symm
  intro d
  induction d with
  | nil => rfl
  | cons p d ih =>
    simp only [List.map_cons]
    cases hp : (p.1 == k) with
    | true =>
      have hp1 : p.1 = k := by simpa using hp
      rw [if_pos rfl]
      rw [List.find?_cons_of_neg _ (by simp [hkne])]
      rw [List.find?_cons_of_neg _ (by simp [hp1, hkne])]
      exact ih
    | false =>
      rw [if_neg Bool.false_ne_true]
      cases hpk : (p.1 == k') with
      | true => simp only [List.find?_cons, hpk]
      | false =>
        simp only [List.find?_cons, hpk]
        exact ih

theorem dictGet_dictSet_self (d : Row) (k : String) (v : FieldVal) :
    dictGet (dictSet d k v) k = some v := by
  unfold dictSet dictGet
  by_cases h : d.any (fun p => p.1 == k)
  · rw [if_pos h, find?_map_update_self k v d h]
    rfl
  · rw [if_neg h, List.find?_append]
    have hnone : d.find? (fun p => p.1 == k) = none := by
      rw [List.find?_eq_none]
      intro p hp hk
      exact h (List.any_eq_true.mpr ⟨p, hp, hk⟩)
    simp [hnone]

theorem dictGet_dictSet_other (d : Row) (k k' : String) (v : FieldVal)
    (hne : k' ≠ k) :
    dictGet (dictSet d k v) k' = dictGet d k' := by
  unfold dictSet dictGet
  by_cases h : d.any (fun p => p.1 == k)
  · rw [if_pos h, find?_map_update_other k k' v hne d]
  · rw [if_neg h, List.find?_append]
    have h1 : List.find? (fun p => p.1 == k') [(k, v)] = none := by
      have hkne : k ≠ k' := fun h => hne h.symm
      simp [hkne]
    rw [h1]
    simp

theorem contains_eq_decide_mem (l : List String) (a : String) :
    l.contains a = decide (a ∈ l) :=
  List.elem_eq_mem a l

theorem row_any_eq_contains (d : Row) (k : String) :
    d.any (fun p => p.1 == k) = (d.map (fun p => p.1)).contains k := by
  induction d with
  | nil => rfl
  | cons p d ih =>
    simp only [List.any_cons, List.map_cons, List.contains_cons, ih]
    rw [Bool.beq_comm]

theorem keys_dictSet (d : Row) (k : String) (v : FieldVal) :
    (dictSet d k v).map (fun p => p.1)
      = if (d.map (fun p => p.1)).contains k then d.map (fun p => p.1)
        else d.map (fun p => p.1) ++ [k] := by
  unfold dictSet
  rw [← row_any_eq_contains]
  by_cases h : d.any (fun p => p.1 == k)
  · rw [if_pos h, if_pos h, List.map_map]
    apply List.map_congr_left
    intro p _
    simp only [Function.comp_apply]
    cases hp : (p.1 == k) with
    | true => simp_all
    | false => simp [hp]
  · rw [if_neg h, if_neg h]
    simp

theorem foldl_lookup_agree :
    ∀ (legs : List Legislator) (m1 : Int → Option String)
      (m2 : Int → Option Legislator),
      (∀ i, m1 i = (m2 i).map (fun leg => leg.name)) →
      ∀ i, (legs.foldl (fun m leg => fun j => if j = leg.id then some leg.name else m j) m1) i
        = ((legs.foldl (fun m leg => fun j => if j = leg.id then some leg else m j) m2) i).map
            (fun leg => leg.name) := by
  intro legs
  induction legs with
  | nil => intro m1 m2 h i; exact h i
  | cons leg legs ih =>
    intro m1 m2 h i
    rw [List.foldl_cons, List.foldl_cons]
    apply ih
    intro j
    by_cases hj : j = leg.id
    · simp [hj]
    · simp [hj, h j]

/-- The name-valued lookup of the enrichment layer agrees with the
record-valued lookup of the bill summary on every key. -/
theorem legNameLookup_eq (legs : List Legislator) (i : Int) :
    legNameLookup legs i = (legislator_by_id legs i).map (fun leg => leg.name) := by
  unfold legNameLookup legislator_by_id
  exact foldl_lookup_agree legs (fun _ => none) (fun _ => none) (fun _ => rfl) i

/-- Loading a bill from a raw row preserves the parsed sponsor alias chain. -/
theorem bill_of_row_sponsor {row : RawRow} {bill : Bill}
    (h : bill_of_row row = some bill) :
    parse_int (sponsorAliasRaw row) = bill.sponsor_id := by
  unfold bill_of_row at h
  cases hid : parse_int (rowGet row "id") with
  | none => rw [hid] at h; cases h
  | some n =>
    rw [hid] at h
    injection h with h'
    subst h'
    rfl

/-! ### Claim theorems -/

/-- C1: the aggregation deduplicates per (key, vote_type): membership in a
legislator's supported/opposed set and in a bill's supporter/opposer set
depends only on whether SOME vote result contributes it (so duplicates add
nothing and each element occurs once, the sets being sets), and the
supported and opposed sides are independent: duplicate results on the same
vote id with vote_type 1 and 2 place the legislator in both the supporter
and the opposer set of that bill. -/
theorem claim_C1 (votes : Int → Option Vote) (rs : List VoteResult) :
    (∀ l b, b ∈ (legSets votes rs).1 l ↔
        ∃ r ∈ rs, r.legislator_id = l ∧ r.vote_type = 1 ∧
          ∃ v, votes r.vote_id = some v ∧ v.bill_id = b)
    ∧ (∀ l b, b ∈ (legSets votes rs).2 l ↔
        ∃ r ∈ rs, r.legislator_id = l ∧ r.vote_type = 2 ∧
          ∃ v, votes r.vote_id = some v ∧ v.bill_id = b)
    ∧ (∀ b l, l ∈ (billSets votes rs).1 b ↔
        ∃ r ∈ rs, r.legislator_id = l ∧ r.vote_type = 1 ∧
          ∃ v, votes r.vote_id = some v ∧ v.bill_id = b)
    ∧ (∀ b l, l ∈ (billSets votes rs).2 b ↔
        ∃ r ∈ rs, r.legislator_id = l ∧ r.vote_type = 2 ∧
          ∃ v, votes r.vote_id = some v ∧ v.bill_id = b)
    ∧ ∀ r1 r2, r1 ∈ rs → r2 ∈ rs → r1.legislator_id = r2.legislator_id →
        r1.vote_id = r2.vote_id → r1.vote_type = 1 → r2.vote_type = 2 →
        ∀ v, votes r1.vote_id = some v →
          r1.legislator_id ∈ (billSets votes rs).1 v.bill_id ∧
          r1.legislator_id ∈ (billSets votes rs).2 v.bill_id := by
  refine ⟨?_, ?_, ?_, ?_, ?_⟩
  · intro l b; rw [legSets_fst]; exact mem_supportedBills
  · intro l b; rw [legSets_snd]; exact mem_opposedBills
  · intro b l; rw [billSets_fst]; exact mem_billSupporters
  · intro b l; rw [billSets_snd]; exact mem_billOpposers
  · intro r1 r2 h1 h2 hleg hvid ht1 ht2 v hv
    constructor
    · rw [billSets_fst]
      exact mem_billSupporters.mpr ⟨r1, h1, rfl, ht1, v, hv, rfl⟩
    · rw [billSets_snd]
      refine mem_billOpposers.mpr ⟨r2, h2, hleg.symm, ht2, v, ?_, rfl⟩
      rw [← hvid]; exact hv

/-- C1 witness: in the both-ways fixture the legislator lands in both the
supporter and the opposer set of the bill. -/
theorem claim_C1_witness :
    (1 : Int) ∈ (billSets votesEx resultsBothWays).1 10 ∧
      (1 : Int) ∈ (billSets votesEx resultsBothWays).2 10 := by
  have h := (claim_C1 votesEx resultsBothWays).2.2.2.2
    ⟨1, 100, 1⟩ ⟨1, 100, 2⟩ (by decide) (by decide) rfl rfl rfl rfl
    ⟨100, 10⟩ (by decide)
  exact h

/-- C2: the end-to-end example: two legislators, one bill sponsored by
Alice, one vote, Alice supports and Bob opposes; the summaries are exactly
the claimed rows. -/
theorem claim_C2 :
    compute_legislator_summary legsEx resultsEx votesEx
      = [⟨1, "Alice", 1, 0⟩, ⟨2, "Bob", 0, 1⟩]
    ∧ compute_bill_summary billsEx legsEx resultsEx votesEx
      = [⟨10, "Act A", 1, 1, "Alice"⟩] := by
  constructor
  · simp only [compute_legislator_summary, legsEx]
    rw [List.mergeSort_of_sorted (by decide)]
    decide
  · simp only [compute_bill_summary, billsEx]
    rw [List.mergeSort_of_sorted (by decide)]
    decide

/-- C3: the legislator summary is a total projection: one row per loaded
legislator, sorted ascending by id, every loaded legislator's row present
with its name and the two distinct-bill counts, and a legislator no vote
result references gets counts 0 and 0. -/
theorem claim_C3 (legislators : List Legislator) (rs : List VoteResult)
    (votes : Int → Option Vote) :
    ((compute_legislator_summary legislators rs votes).length = legislators.length)
    ∧ ((compute_legislator_summary legislators rs votes).Pairwise
        (fun a b => a.id ≤ b.id))
    ∧ (∀ leg ∈ legislators,
        (⟨leg.id, leg.name, (supportedBills votes rs leg.id).card,
            (opposedBills votes rs leg.id).card⟩ : LegislatorRow)
          ∈ compute_legislator_summary legislators rs votes)
    ∧ (∀ leg ∈ legislators, (∀ r ∈ rs, r.legislator_id ≠ leg.id) →
        (⟨leg.id, leg.name, 0, 0⟩ : LegislatorRow)
          ∈ compute_legislator_summary legislators rs votes) := by
  have hmem : ∀ leg ∈ legislators,
      (⟨leg.id, leg.name, (supportedBills votes rs leg.id).card,
          (opposedBills votes rs leg.id).card⟩ : LegislatorRow)
        ∈ compute_legislator_summary legislators rs votes := by
    intro leg hleg
    unfold compute_legislator_summary
    refine List.mem_map.mpr ⟨leg, List.mem_mergeSort.mpr hleg, ?_⟩
    rw [legSets_fst, legSets_snd]
  refine ⟨?_, ?_, hmem, ?_⟩
  · simp [compute_legislator_summary]
  · unfold compute_legislator_summary
    rw [List.pairwise_map]
    have hsorted := @List.sorted_mergeSort Legislator
      (fun a b : Legislator => decide (a.id ≤ b.id))
      (fun a b c hab hbc => by
        simp only [decide_eq_true_eq] at hab hbc ⊢; omega)
      (fun a b => by
        simp only [Bool.or_eq_true, decide_eq_true_eq]; omega)
      legislators
    exact hsorted.imp (fun h => by simpa using h)
  · intro leg hleg hnone
    have hsup : supportedBills votes rs leg.id = ∅ := by
      apply Finset.eq_empty_of_forall_not_mem
      intro b hb
      obtain ⟨r, hr, hid, -⟩ := mem_supportedBills.mp hb
      exact hnone r hr hid
    have hopp : opposedBills votes rs leg.id = ∅ := by
      apply Finset.eq_empty_of_forall_not_mem
      intro b hb
      obtain ⟨r, hr, hid, -⟩ := mem_opposedBills.mp hb
      exact hnone r hr hid
    have h := hmem leg hleg
    rw [hsup, hopp] at h
    simpa using h

/-- C3 witness: a legislator with no referencing vote results appears in
the summary with zero counts. -/
theorem claim_C3_witness :
    (⟨2, "Bob", 0, 0⟩ : LegislatorRow)
      ∈ compute_legislator_summary legsEx resultsBothWays votesEx := by
  have h := (claim_C3 legsEx resultsBothWays votesEx).2.2.2
  exact h ⟨2, "Bob"⟩ (by decide) (by decide)

/-- C4 counterexample: for a sponsor id of 0 matching a loaded legislator
with id 0, the bills-preview enrichment yields `"Unknown"` (Python `if
sponsor_id` treats 0 as falsy) while the bill summary resolves the name,
so the two resolutions are NOT equal and neither is `"Unknown"` exactly
when there is no match. -/
theorem claim_C4_counterexample :
    bill_of_row rowZed = some billZed
    ∧ dictGet (enrich_bill_row (legNameLookup legsZed) rowZed) "sponsor_name"
        = some (FieldVal.str "Unknown")
    ∧ resolveSponsor (legislator_by_id legsZed) billZed = "Zed"
    ∧ (compute_bill_summary [billZed] legsZed [] (fun _ => none)).map
        (fun row => row.primary_sponsor) = ["Zed"]
    ∧ ("Unknown" : String) ≠ "Zed" := by
  refine ⟨by decide, by decide, by decide, ?_, by decide⟩
  simp only [compute_bill_summary]
  rw [List.mergeSort_of_sorted (by decide)]
  decide

/-- C4 amended: for every bill loaded from a raw row, the sponsor_name of
the bills-preview enrichment equals the primary_sponsor resolution of the
bill summary whenever the resolved sponsor id is not 0; when the sponsor
id is exactly 0 the enrichment yields `"Unknown"` unconditionally (the
summary still resolves it against the lookup). -/
theorem claim_C4_amended (legislators : List Legislator) (row : RawRow)
    (bill : Bill) (hload : bill_of_row row = some bill) :
    (bill.sponsor_id ≠ some 0 →
      dictGet (enrich_bill_row (legNameLookup legislators) row) "sponsor_name"
        = some (FieldVal.str (resolveSponsor (legislator_by_id legislators) bill)))
    ∧ (bill.sponsor_id = some 0 →
      dictGet (enrich_bill_row (legNameLookup legislators) row) "sponsor_name"
        = some (FieldVal.str "Unknown")) := by
  have hsp := bill_of_row_sponsor hload
  unfold enrich_bill_row
  rw [hsp, dictGet_dictSet_self]
  constructor
  · intro hne
    cases hs : bill.sponsor_id with
    | none => simp [resolveSponsor, hs]
    | some sid =>
      have hsid : ¬ sid = 0 := fun h0 => hne (by rw [hs, h0])
      simp only [if_neg hsid, resolveSponsor, hs, legNameLookup_eq]
      cases legislator_by_id legislators sid <;> simp
  · intro h0
    rw [h0]
    simp

/-- C4 witness: on a sponsor id of 1 the two resolutions agree. -/
theorem claim_C4_witness :
    dictGet (enrich_bill_row (legNameLookup legsEx)
        [("id", "10"), ("sponsor_id", "1")]) "sponsor_name"
      = some (FieldVal.str (resolveSponsor (legislator_by_id legsEx)
          ⟨10, "", some 1⟩)) :=
  (claim_C4_amended legsEx [("id", "10"), ("sponsor_id", "1")]
    ⟨10, "", some 1⟩ (by decide)).1 (by decide)

/-- C9 counterexample: a raw bills row that already has a `sponsor_name`
column does NOT keep its value: the enrichment overwrites it with the
derived sponsor name, refuting "every column present in the input row
keeps its value in the output". -/
theorem claim_C9_counterexample :
    rowGet rowClash "sponsor_name" = some "X"
    ∧ dictGet (enrichOne ctxEmpty Category.bills rowClash) "sponsor_name"
        = some (FieldVal.str "Unknown")
    ∧ FieldVal.str "Unknown" ≠ FieldVal.str "X" := by
  refine ⟨by decide, by decide, by decide⟩

/-- C9 amended: enrichment builds a new record; every column NOT among the
category's derived field names keeps its value (a colliding derived column
is overwritten in place), and the record's field order is the input's
fields followed by the derived fields not already present — exactly the
column list `preview_dataset` builds. -/
theorem claim_C9_amended (ctx : LookupCtx) (cat : Category) (row : RawRow) :
    (∀ k, k ∉ extraFields cat →
      dictGet (enrichOne ctx cat row) k = (rowGet row k).map FieldVal.str)
    ∧ (enrichOne ctx cat row).map (fun p => p.1)
        = previewFieldnames (row.map (fun p => p.1)) (extraFields cat) := by
  cases cat with
  | legislators =>
    refine ⟨fun k _ => dictGet_rawToRow row k, ?_⟩
    simp [previewFieldnames, rawToRow_keys, extraFields, enrichOne]
  | bills =>
    constructor
    · intro k hk
      have hk1 : k ≠ "sponsor_name" := by simpa [extraFields] using hk
      show dictGet (enrich_bill_row ctx.legNames row) k = _
      unfold enrich_bill_row
      rw [dictGet_dictSet_other _ _ _ _ hk1, dictGet_rawToRow]
    · show (enrich_bill_row ctx.legNames row).map (fun p => p.1) = _
      unfold enrich_bill_row
      rw [keys_dictSet, rawToRow_keys]
      simp only [contains_eq_decide_mem]
      by_cases hc : "sponsor_name" ∈ row.map (fun p => p.1) <;>
        simp [previewFieldnames, hc, extraFields, List.filter_cons]
  | votes =>
    constructor
    · intro k hk
      have hk1 : k ≠ "bill_title" := by simpa [extraFields] using hk
      show dictGet (enrich_votes_row ctx.billLookup row) k = _
      unfold enrich_votes_row
      rw [dictGet_dictSet_other _ _ _ _ hk1, dictGet_rawToRow]
    · show (enrich_votes_row ctx.billLookup row).map (fun p => p.1) = _
      unfold enrich_votes_row
      rw [keys_dictSet, rawToRow_keys]
      simp only [contains_eq_decide_mem]
      by_cases hc : "bill_title" ∈ row.map (fun p => p.1) <;>
        simp [previewFieldnames, hc, extraFields, List.filter_cons]
  | vote_results =>
    constructor
    · intro k hk
      obtain ⟨h1, h2, h3⟩ :
          k ≠ "legislator_name" ∧ k ≠ "bill_id" ∧ k ≠ "bill_title" := by
        simpa [extraFields] using hk
      show dictGet
        (enrich_vote_results_row ctx.legNames ctx.billLookup ctx.voteLookup row) k = _
      unfold enrich_vote_results_row
      rw [dictGet_dictSet_other _ _ _ _ h3, dictGet_dictSet_other _ _ _ _ h2,
        dictGet_dictSet_other _ _ _ _ h1, dictGet_rawToRow]
    · show (enrich_vote_results_row ctx.legNames ctx.billLookup ctx.voteLookup
          row).map (fun p => p.1) = _
      unfold enrich_vote_results_row
      simp only [keys_dictSet, rawToRow_keys, contains_eq_decide_mem]
      have ne21 : ("bill_id" : String) ≠ "legislator_name" := by decide
      have ne31 : ("bill_title" : String) ≠ "legislator_name" := by decide
      have ne32 : ("bill_title" : String) ≠ "bill_id" := by decide
      by_cases c1 : "legislator_name" ∈ row.map (fun p => p.1) <;>
      by_cases c2 : "bill_id" ∈ row.map (fun p => p.1) <;>
      by_cases c3 : "bill_title" ∈ row.map (fun p => p.1) <;>
        simp [previewFieldnames, extraFields, c1, c2, c3, ne21, ne31, ne32,
          List.filter_cons, List.mem_append]

/-- C9 witness: on the colliding fixture, the non-derived `id` column keeps
its value and the field order is the preview column list. -/
theorem claim_C9_witness :
    dictGet (enrichOne ctxEmpty Category.bills rowClash) "id"
      = some (FieldVal.str "1")
    ∧ (enrichOne ctxEmpty Category.bills rowClash).map (fun p => p.1)
        = previewFieldnames (rowClash.map (fun p => p.1))
            (extraFields Category.bills) := by
  have h := claim_C9_amended ctxEmpty Category.bills rowClash
  refine ⟨?_, h.2⟩
  rw [h.1 "id" (by decide)]
  decide

/-- C5 counterexample: one legislator casting vote_type 1 and vote_type 2
on the same vote lands in both sets, so supporter_count + opposer_count
for the bill is 2 while only one distinct legislator voted on it; the
claimed inequality fails. -/
theorem claim_C5_counterexample :
    compute_bill_summary [⟨10, "Act A", none⟩] [] resultsBothWays votesEx
      = [⟨10, "Act A", 1, 1, "Unknown"⟩]
    ∧ (votersOn votesEx resultsBothWays 10).card = 1
    ∧ ¬ ((1 : Nat) + 1 ≤ 1) := by
  refine ⟨?_, by decide, by decide⟩
  simp only [compute_bill_summary]
  rw [List.mergeSort_of_sorted (by decide)]
  decide

/-- C5 amended: for every bill-summary row, supporter_count + opposer_count
is at most the number of distinct legislators voting on the bill's votes
PLUS the number of legislators in both sets (both-ways voters are counted
twice, so the original bound without that correction term is false). -/
theorem claim_C5_amended (bills : List Bill) (legs : List Legislator)
    (rs : List VoteResult) (votes : Int → Option Vote) (row : BillRow)
    (hrow : row ∈ compute_bill_summary bills legs rs votes) :
    row.supporter_count + row.opposer_count
      ≤ (votersOn votes rs row.id).card
        + (billSupporters votes rs row.id ∩ billOpposers votes rs row.id).card := by
  unfold compute_bill_summary at hrow
  obtain ⟨bill, hbill, rfl⟩ := List.mem_map.mp hrow
  simp only [billSets_fst, billSets_snd]
  have hsub : billSupporters votes rs bill.id ∪ billOpposers votes rs bill.id
      ⊆ votersOn votes rs bill.id := by
    intro l hl
    rcases Finset.mem_union.mp hl with h | h
    · obtain ⟨r, hr, hid, -, v, hv, hb⟩ := mem_billSupporters.mp h
      exact mem_votersOn.mpr ⟨r, hr, hid, v, hv, hb⟩
    · obtain ⟨r, hr, hid, -, v, hv, hb⟩ := mem_billOpposers.mp h
      exact mem_votersOn.mpr ⟨r, hr, hid, v, hv, hb⟩
  have hcard := Finset.card_union_add_card_inter
    (billSupporters votes rs bill.id) (billOpposers votes rs bill.id)
  have hle := Finset.card_le_card hsub
  omega

/-- C5 witness: the amended bound applied at the both-ways fixture. -/
theorem claim_C5_witness :
    (⟨10, "Act A", 1, 1, "Unknown"⟩ : BillRow).supporter_count
        + (⟨10, "Act A", 1, 1, "Unknown"⟩ : BillRow).opposer_count
      ≤ (votersOn votesEx resultsBothWays 10).card
        + (billSupporters votesEx resultsBothWays 10
            ∩ billOpposers votesEx resultsBothWays 10).card := by
  have hmem : (⟨10, "Act A", 1, 1, "Unknown"⟩ : BillRow)
      ∈ compute_bill_summary [⟨10, "Act A", none⟩] [] resultsBothWays votesEx := by
    simp only [compute_bill_summary]
    rw [List.mergeSort_of_sorted (by decide)]
    decide
  exact claim_C5_amended [⟨10, "Act A", none⟩] [] resultsBothWays votesEx _ hmem

/-- C7: in every bill-summary row, primary_sponsor is `"Unknown"` exactly
when the bill has no sponsor id or it matches no loaded legislator, and
otherwise the matched legislator's name. -/
theorem claim_C7 (bills : List Bill) (legs : List Legislator)
    (rs : List VoteResult) (votes : Int → Option Vote) (bill : Bill)
    (hb : bill ∈ bills) :
    ∃ row ∈ compute_bill_summary bills legs rs votes,
      row.id = bill.id ∧ row.title = bill.title
      ∧ (bill.sponsor_id = none → row.primary_sponsor = "Unknown")
      ∧ (∀ sid, bill.sponsor_id = some sid → (∀ leg ∈ legs, leg.id ≠ sid) →
          row.primary_sponsor = "Unknown")
      ∧ (∀ sid leg, bill.sponsor_id = some sid →
          legislator_by_id legs sid = some leg →
          row.primary_sponsor = leg.name ∧ leg ∈ legs ∧ leg.id = sid) := by
  have hmem : (⟨bill.id, bill.title, ((billSets votes rs).1 bill.id).card,
      ((billSets votes rs).2 bill.id).card,
      resolveSponsor (legislator_by_id legs) bill⟩ : BillRow)
      ∈ compute_bill_summary bills legs rs votes := by
    unfold compute_bill_summary
    exact List.mem_map.mpr ⟨bill, List.mem_mergeSort.mpr hb, rfl⟩
  refine ⟨_, hmem, rfl, rfl, ?_, ?_, ?_⟩
  · intro hnone
    simp [resolveSponsor, hnone]
  · intro sid hsid hnomatch
    have hlook := legislator_by_id_none legs sid hnomatch
    simp [resolveSponsor, hsid, hlook]
  · intro sid leg hsid hlook
    exact ⟨by simp [resolveSponsor, hsid, hlook],
      (legislator_by_id_some legs sid leg hlook).1,
      (legislator_by_id_some legs sid leg hlook).2⟩

/-- C7 witness: in the end-to-end example the sponsor of bill 10 resolves
to Alice. -/
theorem claim_C7_witness :
    ∃ row ∈ compute_bill_summary billsEx legsEx resultsEx votesEx,
      row.id = 10 ∧ row.primary_sponsor = "Alice" := by
  obtain ⟨row, hmem, hid, -, -, -, hres⟩ :=
    claim_C7 billsEx legsEx resultsEx votesEx ⟨10, "Act A", some 1⟩ (by decide)
  have h := hres 1 ⟨1, "Alice"⟩ rfl (by decide)
  exact ⟨row, hmem, hid, h.1⟩

/-- C6: a vote result whose vote id is absent from the vote lookup
contributes to neither summary: deleting it changes no row.  (The
embedding is total, so no error can be raised.) -/
theorem claim_C6 (legs : List Legislator) (bills : List Bill)
    (rs1 rs2 : List VoteResult) (r : VoteResult) (votes : Int → Option Vote)
    (h : votes r.vote_id = none) :
    compute_legislator_summary legs (rs1 ++ r :: rs2) votes
      = compute_legislator_summary legs (rs1 ++ rs2) votes
    ∧ compute_bill_summary bills legs (rs1 ++ r :: rs2) votes
      = compute_bill_summary bills legs (rs1 ++ rs2) votes := by
  have hleg : ∀ acc, legSetsStep votes acc r = acc := by
    intro acc; unfold legSetsStep; rw [h]
  have hbill : ∀ acc, billSetsStep votes acc r = acc := by
    intro acc; unfold billSetsStep; rw [h]
  have hsets : legSets votes (rs1 ++ r :: rs2) = legSets votes (rs1 ++ rs2) := by
    simp [legSets, List.foldl_append, List.foldl_cons, hleg]
  have hsets2 : billSets votes (rs1 ++ r :: rs2) = billSets votes (rs1 ++ rs2) := by
    simp [billSets, List.foldl_append, List.foldl_cons, hbill]
  constructor
  · unfold compute_legislator_summary; rw [hsets]
  · unfold compute_bill_summary; rw [hsets2]

/-- C6 witness: dropping a result referencing the unknown vote id 999
leaves the example summaries unchanged. -/
theorem claim_C6_witness :
    compute_legislator_summary legsEx (resultsEx ++ ⟨1, 999, 1⟩ :: []) votesEx
      = compute_legislator_summary legsEx (resultsEx ++ []) votesEx
    ∧ compute_bill_summary billsEx legsEx (resultsEx ++ ⟨1, 999, 1⟩ :: []) votesEx
      = compute_bill_summary billsEx legsEx (resultsEx ++ []) votesEx :=
  claim_C6 legsEx billsEx resultsEx [] ⟨1, 999, 1⟩ votesEx (by decide)

/-- C8: both summary computations are deterministic functions of the loaded
records: extensionally equal inputs (the vote lookup compared pointwise)
produce equal row lists, and in this embedding both computations are pure
functions sharing no state. -/
theorem claim_C8 (legs1 legs2 : List Legislator) (bills1 bills2 : List Bill)
    (rs1 rs2 : List VoteResult) (votes1 votes2 : Int → Option Vote)
    (hl : legs1 = legs2) (hb : bills1 = bills2) (hr : rs1 = rs2)
    (hv : ∀ i, votes1 i = votes2 i) :
    compute_legislator_summary legs1 rs1 votes1
      = compute_legislator_summary legs2 rs2 votes2
    ∧ compute_bill_summary bills1 legs1 rs1 votes1
      = compute_bill_summary bills2 legs2 rs2 votes2 := by
  have hvf : votes1 = votes2 := funext hv
  subst hl; subst hb; subst hr; subst hvf
  exact ⟨rfl, rfl⟩

/-- C10: the legislator and bill loaders keep every row with a parseable
id — no deduplication — so the number of loaded records with id `i` equals
the number of raw rows whose id parses to `i`, and each summary emits
exactly one row per loaded record with that id: a duplicated id appears as
multiple summary rows. -/
theorem claim_C10 (legRows billRows : List RawRow) (rs : List VoteResult)
    (votes : Int → Option Vote) (legs : List Legislator) (i : Int) :
    ((load_legislators legRows).countP (fun l => l.id == i)
        = legRows.countP (fun row => parse_int (rowGet row "id") == some i))
    ∧ ((load_bills billRows).countP (fun b => b.id == i)
        = billRows.countP (fun row => parse_int (rowGet row "id") == some i))
    ∧ ((compute_legislator_summary (load_legislators legRows) rs votes).countP
          (fun row => row.id == i)
        = (load_legislators legRows).countP (fun l => l.id == i))
    ∧ ((compute_bill_summary (load_bills billRows) legs rs votes).countP
          (fun row => row.id == i)
        = (load_bills billRows).countP (fun b => b.id == i)) := by
  refine ⟨?_, ?_, ?_, ?_⟩
  · unfold load_legislators
    rw [List.countP_filterMap]
    apply List.countP_congr
    intro row _
    unfold legislator_of_row
    cases h : parse_int (rowGet row "id") with
    | none => rfl
    | some n => rfl
  · unfold load_bills
    rw [List.countP_filterMap]
    apply List.countP_congr
    intro row _
    unfold bill_of_row
    cases h : parse_int (rowGet row "id") with
    | none => rfl
    | some n => rfl
  · unfold compute_legislator_summary
    rw [List.countP_map]
    exact (List.mergeSort_perm (load_legislators legRows) _).countP_eq _
  · unfold compute_bill_summary
    rw [List.countP_map]
    exact (List.mergeSort_perm (load_bills billRows) _).countP_eq _

/-- C8 witness: determinism applied to the end-to-end example. -/
theorem claim_C8_witness :
    compute_legislator_summary legsEx resultsEx votesEx
      = compute_legislator_summary legsEx resultsEx votesEx
    ∧ compute_bill_summary billsEx legsEx resultsEx votesEx
      = compute_bill_summary billsEx legsEx resultsEx votesEx :=
  claim_C8 legsEx legsEx billsEx billsEx resultsEx resultsEx votesEx votesEx
    rfl rfl rfl (fun _ => rfl)

